import Mathlib

/-!
Verification of the todo-app project-membership subsystem
(`todoapp/projects/serializers.py`, `todoapp/projects/constants.py`) and the
todo update serializer (`todoapp/todos/serializers.py`), shallowly embedded:
the relational store becomes explicit lists of records, the serializer
methods become pure functions from the pre-state to an `Except` of either a
field-level validation error or the outcome logs together with the
post-state.
-/

namespace TodoApp

/-! ### Constants (`projects/constants.py`) -/

def MIN_LENGTH : Nat := 1
def MAX_LENGTH : Nat := 10
def MAX_ASSOCIATED_PROJECTS : Nat := 2
def NO_SPACE_LEFT : Nat := 0

def ALREADY_MEMBER_OF_PROJECT : String := "User is already a member"
def MAX_ASSOCIATED_PROJECTS_LIMIT : String :=
  "Cannot add as user is already a member in two projects"
def INVALID_USER_IDS : String := "Invalid ids present"
def NOT_A_MEMBER_OF_PROJECT : String := "User is not a member of the project"
def MEMBER_ADDED_SUCCESSFULLY : String := "Member added successfully"
def MEMBER_REMOVED_SUCCESSFULLY : String := "Member removed successfully"

/-- `ERROR_MESSAGES['PROJECT_MEMBERS_MAX_LIMIT_REACHED'].format(remaining_members=...)`. -/
def PROJECT_MEMBERS_MAX_LIMIT_REACHED (remaining_members : Nat) : String :=
  "Max limit reached for project members. " ++ toString remaining_members
    ++ " members can be added."

/-! ### Data model -/

/-- A row of the `ProjectMember` through table (`projects/models.py`). -/
structure Membership where
  project_id : Nat
  member_id : Nat
deriving DecidableEq, Repr

/-- The slice of the relational store these operations read or write:
`User` rows (by id), `ProjectMember` rows, and the untouched `Todo` and
`Project` tables (by id), kept to state frame properties. -/
structure Store where
  userIds : List Nat
  memberships : List Membership
  todoIds : List Nat
  projectIds : List Nat
deriving DecidableEq, Repr

/-- The project snapshot handed to the serializer by
`ProjectMemberApiViewSet.get_queryset`: `id`, `existing_members` (current
member count), `max_members`, `users` (current member ids). -/
structure ProjectSnapshot where
  id : Nat
  users : List Nat
  existing_members : Nat
  max_members : Nat
deriving DecidableEq, Repr

/-- A field-level validation error, as raised by
`rest_exceptions.ValidationError({'user_ids': [...]})`. -/
structure FieldError where
  field : String
  messages : List String
deriving DecidableEq, Repr

/-- The successful outcome of an add/remove call: the per-user-id logs
dictionary (an association list keyed by user id) and the post-state. -/
structure MemberResult where
  logs : List (Nat × String)
  store : Store
deriving DecidableEq, Repr

/-! ### `ProjectMemberSerializer` -/

/-- `validate_user_ids`: remove duplicate ids (`list(set(user_ids))`). -/
def validate_user_ids (user_ids : List Nat) : List Nat :=
  user_ids.dedup

/-- The per-user membership count computed by
`get_user_wise_project_count_and_valid_user_ids`
(`annotate(project_count=Count('project'))`). -/
def project_count (store : Store) (uid : Nat) : Nat :=
  (store.memberships.filter (fun m => m.member_id == uid)).length

/-- The requested ids that resolve to an existing `User` row (the key set of
`user_wise_project_count`). -/
def resolved_user_ids (store : Store) (ids : List Nat) : List Nat :=
  ids.filter (fun uid => uid ∈ store.userIds)

/-- The requested ids with no matching `User` row
(`set(validated_data['user_ids']).difference(valid_user_ids)` in
`check_for_invalid_user_ids`). -/
def invalid_ids (store : Store) (ids : List Nat) : List Nat :=
  ids.filter (fun uid => uid ∉ store.userIds)

/-- The error raised by `check_for_invalid_user_ids`. -/
def invalid_ids_error : FieldError :=
  { field := "user_ids", messages := [INVALID_USER_IDS] }

/-- The per-user classification of the `add_members` loop, before the
batch-wide capacity check. -/
def classify_add (project : ProjectSnapshot) (store : Store) (uid : Nat) : String :=
  if uid ∈ project.users then ALREADY_MEMBER_OF_PROJECT
  else if MAX_ASSOCIATED_PROJECTS ≤ project_count store uid then
    MAX_ASSOCIATED_PROJECTS_LIMIT
  else MEMBER_ADDED_SUCCESSFULLY

/-- Whether a user id lands in `users_to_be_added` in the `add_members`
loop: not already a member, and under the two-project limit. -/
def tentatively_accepted (project : ProjectSnapshot) (store : Store) (uid : Nat) : Bool :=
  decide (uid ∉ project.users) && decide (project_count store uid < MAX_ASSOCIATED_PROJECTS)

/-- `users_to_be_added` (as user ids, in classification order). -/
def users_to_be_added (project : ProjectSnapshot) (store : Store) (raw : List Nat) : List Nat :=
  (resolved_user_ids store (validate_user_ids raw)).filter (tentatively_accepted project store)

/-- The batch-wide capacity check
(`project["existing_members"] + len(users_to_be_added) > project["max_members"]`). -/
def add_limit_reached (project : ProjectSnapshot) (store : Store) (raw : List Nat) : Prop :=
  project.max_members < project.existing_members + (users_to_be_added project store raw).length

instance (project : ProjectSnapshot) (store : Store) (raw : List Nat) :
    Decidable (add_limit_reached project store raw) := by
  unfold add_limit_reached; infer_instance

/-- The capacity-overflow message, with the remaining capacity computed as
in the source (`NO_SPACE_LEFT` when already at/over capacity). -/
def remaining_capacity_message (project : ProjectSnapshot) : String :=
  PROJECT_MEMBERS_MAX_LIMIT_REACHED
    (if project.max_members ≤ project.existing_members then NO_SPACE_LEFT
     else project.max_members - project.existing_members)

/-- The final message logged for one resolved user id by `add_members`: the
per-user classification, overwritten by the capacity message for every
tentatively-accepted id when the batch overflows capacity. -/
def add_log_message (project : ProjectSnapshot) (store : Store) (raw : List Nat)
    (uid : Nat) : String :=
  if add_limit_reached project store raw ∧ tentatively_accepted project store uid = true then
    remaining_capacity_message project
  else classify_add project store uid

/-- The logs dictionary returned by `add_members`, keyed by resolved id. -/
def add_logs (project : ProjectSnapshot) (store : Store) (raw : List Nat) :
    List (Nat × String) :=
  (resolved_user_ids store (validate_user_ids raw)).map
    (fun uid => (uid, add_log_message project store raw uid))

/-- The `ProjectMember` rows handed to `bulk_create`. -/
def added_rows (project : ProjectSnapshot) (store : Store) (raw : List Nat) :
    List Membership :=
  (users_to_be_added project store raw).map (fun uid => ⟨project.id, uid⟩)

/-- The post-state of `add_members`: the bulk insert runs only when the
capacity check passed and `users_to_be_added` is non-empty. -/
def add_store (project : ProjectSnapshot) (store : Store) (raw : List Nat) : Store :=
  if ¬ add_limit_reached project store raw ∧ users_to_be_added project store raw ≠ [] then
    { store with memberships := store.memberships ++ added_rows project store raw }
  else store

/-- `ProjectMemberSerializer.add_members`, as a function from the pre-state
and the raw requested id list to either the validation error or the logs
and post-state. -/
def add_members (project : ProjectSnapshot) (store : Store) (raw : List Nat) :
    Except FieldError MemberResult :=
  if invalid_ids store (validate_user_ids raw) ≠ [] then .error invalid_ids_error
  else .ok ⟨add_logs project store raw, add_store project store raw⟩

/-- `users_to_remove`: the resolved ids currently in the project's member
set, scheduled for deletion. -/
def scheduled_removals (project : ProjectSnapshot) (store : Store) (raw : List Nat) :
    List Nat :=
  (resolved_user_ids store (validate_user_ids raw)).filter (fun uid => uid ∈ project.users)

/-- The message logged for one resolved user id by `remove_members`. -/
def remove_log_message (project : ProjectSnapshot) (uid : Nat) : String :=
  if uid ∈ project.users then MEMBER_REMOVED_SUCCESSFULLY
  else NOT_A_MEMBER_OF_PROJECT

/-- The logs dictionary returned by `remove_members`. -/
def remove_logs (project : ProjectSnapshot) (store : Store) (raw : List Nat) :
    List (Nat × String) :=
  (resolved_user_ids store (validate_user_ids raw)).map
    (fun uid => (uid, remove_log_message project uid))

/-- The post-state of `remove_members`: the bulk delete
(`filter(project_id=..., member_id__in=users_to_remove).delete()`) runs only
when `users_to_remove` is non-empty. -/
def remove_store (project : ProjectSnapshot) (store : Store) (raw : List Nat) : Store :=
  if scheduled_removals project store raw ≠ [] then
    { store with
      memberships := store.memberships.filter fun m =>
        ¬ (m.project_id = project.id ∧ m.member_id ∈ scheduled_removals project store raw) }
  else store

/-- `ProjectMemberSerializer.remove_members`. -/
def remove_members (project : ProjectSnapshot) (store : Store) (raw : List Nat) :
    Except FieldError MemberResult :=
  if invalid_ids store (validate_user_ids raw) ≠ [] then .error invalid_ids_error
  else .ok ⟨remove_logs project store raw, remove_store project store raw⟩

/-- The post-state actually reached by a call: the raised validation error
aborts the request, leaving the store as it was. -/
def result_store (store : Store) : Except FieldError MemberResult → Store
  | .error _ => store
  | .ok r => r.store

/-! ### `UpdateTodoSerializer` (`todos/serializers.py`) -/

/-- The validated attribute dictionary of a todo update: `done` is `none`
when absent from the request. Timestamps are modelled as naturals. -/
structure TodoAttrs where
  name : String
  done : Option Bool
  date_completed : Option Nat
deriving DecidableEq, Repr

/-- `UpdateTodoSerializer.validate`: sets `date_completed` to the current
time when the incoming `done` is true, clears it when `done` is false,
leaves the attributes untouched when `done` is absent. -/
def UpdateTodoSerializer.validate (now : Nat) (attrs : TodoAttrs) : TodoAttrs :=
  if attrs.done = some true then { attrs with date_completed := some now }
  else if attrs.done = some false then { attrs with date_completed := none }
  else attrs

/-- A stored `Todo` row (`todos/models.py`), the fields the update touches. -/
structure Todo where
  name : String
  done : Bool
  date_completed : Option Nat
deriving DecidableEq, Repr

/-- One todo update through `UpdateTodoSerializer`: the request supplies the
new name and `done` flag, `validate` rewrites the attributes, and the
validated attributes are saved over the instance. -/
def update_todo (now : Nat) (todo : Todo) (new_name : String) (new_done : Bool) : Todo :=
  let attrs := UpdateTodoSerializer.validate now
    { name := new_name, done := some new_done, date_completed := todo.date_completed }
  { name := attrs.name, done := new_done, date_completed := attrs.date_completed }

/-! ### Helper lemmas -/

theorem lookup_map_self (f : Nat → String) (l : List Nat) (uid : Nat) (h : uid ∈ l) :
    (l.map fun u => (u, f u)).lookup uid = some (f uid) := by
  induction l with
  | nil => simp at h
  | cons a t ih =>
    simp only [List.map_cons, List.lookup]
    by_cases hc : uid = a
    · subst hc; simp
    · have hb : (uid == a) = false := beq_false_of_ne hc
      simp only [hb]
      rcases List.mem_cons.mp h with rfl | hm
      · exact absurd rfl hc
      · exact ih hm

theorem map_fst_map_pair (f : Nat → String) (l : List Nat) :
    (l.map fun u => (u, f u)).map Prod.fst = l := by
  induction l with
  | nil => rfl
  | cons a t ih => simp only [List.map_cons, ih]

theorem lookup_map_none (f : Nat → String) (l : List Nat) (uid : Nat) (h : uid ∉ l) :
    (l.map fun u => (u, f u)).lookup uid = none := by
  induction l with
  | nil => simp
  | cons a t ih =>
    simp only [List.map_cons, List.lookup]
    have hc : uid ≠ a := fun hu => h (hu ▸ List.mem_cons_self a t)
    have hb : (uid == a) = false := beq_false_of_ne hc
    simp only [hb]
    exact ih (fun hm => h (List.mem_cons_of_mem a hm))

/-- When no requested id is invalid, `add_members` returns its logs and
post-state. -/
theorem add_members_ok (project : ProjectSnapshot) (store : Store) (raw : List Nat)
    (h : invalid_ids store (validate_user_ids raw) = []) :
    add_members project store raw =
      .ok ⟨add_logs project store raw, add_store project store raw⟩ := by
  simp [add_members, h]

/-- When no requested id is invalid, `remove_members` returns its logs and
post-state. -/
theorem remove_members_ok (project : ProjectSnapshot) (store : Store) (raw : List Nat)
    (h : invalid_ids store (validate_user_ids raw) = []) :
    remove_members project store raw =
      .ok ⟨remove_logs project store raw, remove_store project store raw⟩ := by
  simp [remove_members, h]

theorem validate_user_ids_nodup (raw : List Nat) : (validate_user_ids raw).Nodup :=
  List.nodup_dedup raw

theorem resolved_user_ids_nodup (store : Store) (raw : List Nat) :
    (resolved_user_ids store (validate_user_ids raw)).Nodup :=
  (validate_user_ids_nodup raw).filter _

theorem users_to_be_added_nodup (project : ProjectSnapshot) (store : Store) (raw : List Nat) :
    (users_to_be_added project store raw).Nodup :=
  (resolved_user_ids_nodup store raw).filter _

/-- All requested ids valid ⟹ `check_for_invalid_user_ids` does not raise. -/
theorem invalid_ids_nil_of_all_valid (store : Store) (raw : List Nat)
    (h : ∀ uid ∈ raw, uid ∈ store.userIds) :
    invalid_ids store (validate_user_ids raw) = [] := by
  refine List.filter_eq_nil_iff.mpr ?_
  intro uid hm
  have := h uid (List.mem_dedup.mp hm)
  simpa using this

/-- All requested ids valid ⟹ the resolved id list is the deduplicated
request. -/
theorem resolved_eq_dedup_of_all_valid (store : Store) (raw : List Nat)
    (h : ∀ uid ∈ raw, uid ∈ store.userIds) :
    resolved_user_ids store (validate_user_ids raw) = validate_user_ids raw := by
  refine List.filter_eq_self.mpr ?_
  intro uid hm
  have := h uid (List.mem_dedup.mp hm)
  simpa using this

theorem mem_dedup_of_mem_resolved (store : Store) (raw : List Nat) (uid : Nat)
    (h : uid ∈ resolved_user_ids store (validate_user_ids raw)) : uid ∈ raw.dedup :=
  (List.mem_filter.mp h).1

theorem tentative_of_mem_users_to_be_added (project : ProjectSnapshot) (store : Store)
    (raw : List Nat) (uid : Nat) (h : uid ∈ users_to_be_added project store raw) :
    tentatively_accepted project store uid = true :=
  (List.mem_filter.mp h).2

/-- Every row handed to `bulk_create` targets the snapshot's project and a
tentatively-accepted user from the deduplicated request. -/
theorem added_rows_spec (project : ProjectSnapshot) (store : Store) (raw : List Nat)
    (m : Membership) (h : m ∈ added_rows project store raw) :
    m.project_id = project.id ∧ tentatively_accepted project store m.member_id = true ∧
      m.member_id ∈ raw.dedup := by
  rw [added_rows] at h
  rcases List.mem_map.mp h with ⟨uid, hm, rfl⟩
  exact ⟨rfl, tentative_of_mem_users_to_be_added project store raw uid hm,
    mem_dedup_of_mem_resolved store raw uid (List.mem_filter.mp hm).1⟩

/-- `add_members` never creates a row for a user that is not tentatively
accepted: a post-state row of such a user was already in the pre-state. -/
theorem add_store_mem_of_not_tentative (project : ProjectSnapshot) (store : Store)
    (raw : List Nat) (uid : Nat)
    (hnt : tentatively_accepted project store uid = false) :
    ∀ m ∈ (add_store project store raw).memberships, m.member_id = uid →
      m ∈ store.memberships := by
  intro m hm heq
  rw [add_store] at hm
  split at hm
  · rcases List.mem_append.mp hm with h | h
    · exact h
    · exfalso
      have ht := (added_rows_spec project store raw m h).2.1
      rw [heq, hnt] at ht
      cases ht
  · exact hm

/-- Every id scheduled for removal is a current member drawn from the
deduplicated request. -/
theorem mem_scheduled_removals (project : ProjectSnapshot) (store : Store)
    (raw : List Nat) (uid : Nat) (h : uid ∈ scheduled_removals project store raw) :
    uid ∈ project.users ∧ uid ∈ raw.dedup := by
  rcases List.mem_filter.mp h with ⟨hres, hu⟩
  exact ⟨by simpa using hu, mem_dedup_of_mem_resolved store raw uid hres⟩

/-! ### Concrete fixtures (used by sanity checks and witnesses) -/

/-- A project with one current member (id 4) and one free slot. -/
def projA : ProjectSnapshot := ⟨1, [4], 1, 2⟩

/-- A store with users 8 and 9, both eligible, and one membership row. -/
def storeA : Store := ⟨[8, 9], [⟨1, 4⟩], [], [1]⟩

/-- An empty project with capacity 2. -/
def projB : ProjectSnapshot := ⟨1, [], 0, 2⟩

/-- A store with users 5, 6, 7 where user 5 already belongs to 2 projects. -/
def storeB : Store := ⟨[5, 6, 7], [⟨10, 5⟩, ⟨11, 5⟩], [2], [1, 10, 11]⟩

/-- A project whose sole member is user 8. -/
def projC : ProjectSnapshot := ⟨1, [8], 1, 2⟩

/-- A store with users 8 and 9 where user 8 is a member of project 1. -/
def storeC : Store := ⟨[8, 9], [⟨1, 8⟩], [], [1]⟩

/-! ### Claim theorems -/

/-- C1: in an add-members call with a valid batch, when `existing_members`
plus the number of tentatively-accepted users exceeds `max_members`, nothing
is persisted and every tentatively-accepted user's outcome is the max-limit
message with N = max_members - existing_members when existing_members <
max_members and N = 0 otherwise; when it does not exceed, every
tentatively-accepted membership is persisted in one bulk insert. -/
theorem add_members_capacity_check (project : ProjectSnapshot) (store : Store)
    (raw : List Nat)
    (_hbatch : MIN_LENGTH ≤ raw.length ∧ raw.length ≤ MAX_LENGTH)
    (hvalid : invalid_ids store (validate_user_ids raw) = []) :
    ∃ r, add_members project store raw = .ok r ∧
      (add_limit_reached project store raw →
        r.store = store ∧
        ∀ uid ∈ users_to_be_added project store raw,
          r.logs.lookup uid = some (PROJECT_MEMBERS_MAX_LIMIT_REACHED
            (if project.existing_members < project.max_members then
              project.max_members - project.existing_members
            else 0))) ∧
      (¬ add_limit_reached project store raw →
        r.store.memberships = store.memberships ++ added_rows project store raw) := by
  refine ⟨⟨add_logs project store raw, add_store project store raw⟩,
    add_members_ok project store raw hvalid, ?_, ?_⟩
  · intro hlim
    refine ⟨by simp [add_store, hlim], ?_⟩
    intro uid hmem
    have htent := tentative_of_mem_users_to_be_added project store raw uid hmem
    have hres : uid ∈ resolved_user_ids store (validate_user_ids raw) :=
      (List.mem_filter.mp hmem).1
    show (add_logs project store raw).lookup uid = _
    rw [add_logs, lookup_map_self _ _ uid hres]
    rw [add_log_message, if_pos ⟨hlim, htent⟩, remaining_capacity_message]
    congr 1
    by_cases hc : project.max_members ≤ project.existing_members
    · rw [if_pos hc, if_neg (not_lt.mpr hc)]; rfl
    · rw [if_neg hc, if_pos (lt_of_not_le hc)]
  · intro hlim
    by_cases hadd : users_to_be_added project store raw = []
    · have hs : add_store project store raw = store := by
        rw [add_store, if_neg]
        rintro ⟨-, hne⟩
        exact hne hadd
      show (add_store project store raw).memberships = _
      rw [hs, added_rows, hadd]
      simp
    · show (add_store project store raw).memberships = _
      rw [add_store, if_pos ⟨hlim, hadd⟩]

/-- C1 witness: the spec's own scenario — existing_members 1, capacity 2,
batch [8, 9] with both users eligible overflows, both get the message with
remaining capacity 1 and nothing is persisted. -/
theorem add_members_capacity_check_witness :
    (MIN_LENGTH ≤ ([8, 9] : List Nat).length ∧ ([8, 9] : List Nat).length ≤ MAX_LENGTH) ∧
    invalid_ids storeA (validate_user_ids [8, 9]) = [] ∧
    ∃ r, add_members projA storeA [8, 9] = .ok r ∧
      (add_limit_reached projA storeA [8, 9] →
        r.store = storeA ∧
        ∀ uid ∈ users_to_be_added projA storeA [8, 9],
          r.logs.lookup uid = some (PROJECT_MEMBERS_MAX_LIMIT_REACHED
            (if projA.existing_members < projA.max_members then
              projA.max_members - projA.existing_members
            else 0))) ∧
      (¬ add_limit_reached projA storeA [8, 9] →
        r.store.memberships = storeA.memberships ++ added_rows projA storeA [8, 9]) :=
  ⟨⟨by decide, by decide⟩, by decide,
    add_members_capacity_check projA storeA [8, 9] ⟨by decide, by decide⟩ (by decide)⟩

/-- C2 counterexample: the validation error raised for an unknown user id is
the constant field error ⟨user_ids, [Invalid ids present]⟩; two different
invalid ids (999 and 998) produce the identical error, so the error does not
name the invalid ids, contrary to the claim. -/
theorem add_members_invalid_error_is_constant :
    add_members ⟨1, [], 0, 2⟩ ⟨[3], [], [], [1]⟩ [999] =
      .error ⟨"user_ids", ["Invalid ids present"]⟩ ∧
    add_members ⟨1, [], 0, 2⟩ ⟨[3], [], [], [1]⟩ [998] =
      .error ⟨"user_ids", ["Invalid ids present"]⟩ ∧
    (999 : Nat) ≠ 998 :=
  ⟨rfl, rfl, by decide⟩

/-- C2 (amended): if some requested id has no matching user record, both
add-members and remove-members fail with the constant field-level validation
error ⟨user_ids, [Invalid ids present]⟩ — which does not list the offending
ids — and no membership is created or deleted: the store is unchanged. -/
theorem invalid_ids_fail_closed (project : ProjectSnapshot) (store : Store)
    (raw : List Nat) (uid : Nat) (hmem : uid ∈ raw) (hinv : uid ∉ store.userIds) :
    add_members project store raw = .error invalid_ids_error ∧
    remove_members project store raw = .error invalid_ids_error ∧
    result_store store (add_members project store raw) = store ∧
    result_store store (remove_members project store raw) = store := by
  have hne : invalid_ids store (validate_user_ids raw) ≠ [] := by
    have hm : uid ∈ invalid_ids store (validate_user_ids raw) :=
      List.mem_filter.mpr ⟨List.mem_dedup.mpr hmem, by simpa using hinv⟩
    exact List.ne_nil_of_mem hm
  refine ⟨by simp [add_members, hne], by simp [remove_members, hne], ?_, ?_⟩
  · simp [add_members, hne, result_store]
  · simp [remove_members, hne, result_store]

/-- C2 witness: requesting [999, 3] against a store that only knows user 3
fails both operations with the constant error and leaves the store as it
was. -/
theorem invalid_ids_fail_closed_witness :
    999 ∈ ([999, 3] : List Nat) ∧
    999 ∉ (⟨[3], [], [], [1]⟩ : Store).userIds ∧
    (add_members ⟨1, [], 0, 2⟩ ⟨[3], [], [], [1]⟩ [999, 3] = .error invalid_ids_error ∧
     remove_members ⟨1, [], 0, 2⟩ ⟨[3], [], [], [1]⟩ [999, 3] = .error invalid_ids_error ∧
     result_store ⟨[3], [], [], [1]⟩
       (add_members ⟨1, [], 0, 2⟩ ⟨[3], [], [], [1]⟩ [999, 3]) = ⟨[3], [], [], [1]⟩ ∧
     result_store ⟨[3], [], [], [1]⟩
       (remove_members ⟨1, [], 0, 2⟩ ⟨[3], [], [], [1]⟩ [999, 3]) = ⟨[3], [], [], [1]⟩) :=
  ⟨by decide, by decide,
    invalid_ids_fail_closed ⟨1, [], 0, 2⟩ ⟨[3], [], [], [1]⟩ [999, 3] 999
      (by decide) (by decide)⟩

/-- C3: in an add-members call, a valid requested id already in the member
set gets exactly the already-a-member message and no membership is created
for it; otherwise a user at the 2-project limit gets exactly the limit
message and is not added; otherwise the id is tentatively accepted. -/
theorem add_members_classification (project : ProjectSnapshot) (store : Store)
    (raw : List Nat) (uid : Nat)
    (hvalid : invalid_ids store (validate_user_ids raw) = [])
    (hres : uid ∈ resolved_user_ids store (validate_user_ids raw)) :
    ∃ r, add_members project store raw = .ok r ∧
      (uid ∈ project.users →
        r.logs.lookup uid = some ALREADY_MEMBER_OF_PROJECT ∧
        ∀ m ∈ r.store.memberships, m.member_id = uid → m ∈ store.memberships) ∧
      (uid ∉ project.users → MAX_ASSOCIATED_PROJECTS ≤ project_count store uid →
        r.logs.lookup uid = some MAX_ASSOCIATED_PROJECTS_LIMIT ∧
        ∀ m ∈ r.store.memberships, m.member_id = uid → m ∈ store.memberships) ∧
      (uid ∉ project.users → project_count store uid < MAX_ASSOCIATED_PROJECTS →
        tentatively_accepted project store uid = true) := by
  refine ⟨⟨add_logs project store raw, add_store project store raw⟩,
    add_members_ok project store raw hvalid, ?_, ?_, ?_⟩
  · intro hu
    have hnt : tentatively_accepted project store uid = false := by
      simp [tentatively_accepted, hu]
    refine ⟨?_, add_store_mem_of_not_tentative project store raw uid hnt⟩
    show (add_logs project store raw).lookup uid = _
    rw [add_logs, lookup_map_self _ _ uid hres]
    congr 1
    rw [add_log_message, if_neg, classify_add, if_pos hu]
    rintro ⟨-, ht⟩
    rw [ht] at hnt
    cases hnt
  · intro hu hcnt
    have hnt : tentatively_accepted project store uid = false := by
      simp [tentatively_accepted, not_lt.mpr hcnt]
    refine ⟨?_, add_store_mem_of_not_tentative project store raw uid hnt⟩
    show (add_logs project store raw).lookup uid = _
    rw [add_logs, lookup_map_self _ _ uid hres]
    congr 1
    rw [add_log_message, if_neg, classify_add, if_neg hu, if_pos hcnt]
    rintro ⟨-, ht⟩
    rw [ht] at hnt
    cases hnt
  · intro hu hcnt
    simp [tentatively_accepted, hu, hcnt]

/-- C3 witness: against the project with current member 4, id 4 reports
already-a-member, and against a user with two memberships (id 5 in
`storeB`), the limit branch applies. -/
theorem add_members_classification_witness :
    invalid_ids storeB (validate_user_ids [5, 6, 7]) = [] ∧
    5 ∈ resolved_user_ids storeB (validate_user_ids [5, 6, 7]) ∧
    ∃ r, add_members projB storeB [5, 6, 7] = .ok r ∧
      (5 ∈ projB.users →
        r.logs.lookup 5 = some ALREADY_MEMBER_OF_PROJECT ∧
        ∀ m ∈ r.store.memberships, m.member_id = 5 → m ∈ storeB.memberships) ∧
      (5 ∉ projB.users → MAX_ASSOCIATED_PROJECTS ≤ project_count storeB 5 →
        r.logs.lookup 5 = some MAX_ASSOCIATED_PROJECTS_LIMIT ∧
        ∀ m ∈ r.store.memberships, m.member_id = 5 → m ∈ storeB.memberships) ∧
      (5 ∉ projB.users → project_count storeB 5 < MAX_ASSOCIATED_PROJECTS →
        tentatively_accepted projB storeB 5 = true) :=
  ⟨by decide, by decide,
    add_members_classification projB storeB [5, 6, 7] 5 (by decide) (by decide)⟩

/-- C4: if the project's stored member count does not exceed `max_members`
before an add-members call whose snapshot `existing_members` is accurate,
then after a successful call the stored member count still does not exceed
`max_members`. -/
theorem add_members_capacity_invariant (project : ProjectSnapshot) (store : Store)
    (raw : List Nat) (r : MemberResult)
    (hacc : project.existing_members =
      (store.memberships.filter (fun m => m.project_id == project.id)).length)
    (hpre : (store.memberships.filter (fun m => m.project_id == project.id)).length
      ≤ project.max_members)
    (hok : add_members project store raw = .ok r) :
    (r.store.memberships.filter (fun m => m.project_id == project.id)).length
      ≤ project.max_members := by
  rw [add_members] at hok
  split at hok
  · cases hok
  · cases hok
    show ((add_store project store raw).memberships.filter _).length ≤ _
    rw [add_store]
    split
    · rename_i h
      show ((store.memberships ++ added_rows project store raw).filter _).length ≤ _
      rw [List.filter_append, List.length_append]
      have hall : (added_rows project store raw).filter
          (fun m => m.project_id == project.id) = added_rows project store raw := by
        refine List.filter_eq_self.mpr ?_
        intro m hm
        have := (added_rows_spec project store raw m hm).1
        simpa using this
      rw [hall, added_rows, List.length_map]
      have hnl := h.1
      rw [add_limit_reached] at hnl
      omega
    · exact hpre

/-- C4 witness: adding 6 and 7 to the empty two-slot project keeps the
stored member count within capacity. -/
theorem add_members_capacity_invariant_witness :
    (projB.existing_members =
      (storeB.memberships.filter (fun m => m.project_id == projB.id)).length) ∧
    ((storeB.memberships.filter (fun m => m.project_id == projB.id)).length
      ≤ projB.max_members) ∧
    (((⟨[(5, MAX_ASSOCIATED_PROJECTS_LIMIT), (6, MEMBER_ADDED_SUCCESSFULLY),
        (7, MEMBER_ADDED_SUCCESSFULLY)],
      ⟨[5, 6, 7], [⟨10, 5⟩, ⟨11, 5⟩, ⟨1, 6⟩, ⟨1, 7⟩], [2], [1, 10, 11]⟩⟩ :
        MemberResult).store.memberships.filter
          (fun m => m.project_id == projB.id)).length ≤ projB.max_members) :=
  ⟨by decide, by decide,
    add_members_capacity_invariant projB storeB [5, 6, 7] _ (by decide) (by decide) rfl⟩

/-- C5: a user whose stored membership count is at most 2 before an
add-members call still has at most 2 memberships after a successful call:
a user already at the limit is never added. -/
theorem add_members_user_limit_invariant (project : ProjectSnapshot) (store : Store)
    (raw : List Nat) (uid : Nat) (r : MemberResult)
    (hpre : project_count store uid ≤ MAX_ASSOCIATED_PROJECTS)
    (hok : add_members project store raw = .ok r) :
    project_count r.store uid ≤ MAX_ASSOCIATED_PROJECTS := by
  rw [add_members] at hok
  split at hok
  · cases hok
  · cases hok
    show project_count (add_store project store raw) uid ≤ _
    rw [add_store]
    split
    · show project_count
        ⟨store.userIds, store.memberships ++ added_rows project store raw,
          store.todoIds, store.projectIds⟩ uid ≤ _
      rw [project_count]
      show ((store.memberships ++ added_rows project store raw).filter _).length ≤ _
      rw [List.filter_append, List.length_append]
      have hrows : (added_rows project store raw).filter (fun m => m.member_id == uid) =
          ((users_to_be_added project store raw).filter (fun u => u == uid)).map
            (fun u => (⟨project.id, u⟩ : Membership)) := by
        rw [added_rows, List.filter_map]
        rfl
      have hlen : ((added_rows project store raw).filter
          (fun m => m.member_id == uid)).length =
          (users_to_be_added project store raw).count uid := by
        rw [hrows, List.length_map, List.count_eq_countP,
          List.countP_eq_length_filter]
      by_cases htent : uid ∈ users_to_be_added project store raw
      · have hcnt : project_count store uid < MAX_ASSOCIATED_PROJECTS := by
          have ht := tentative_of_mem_users_to_be_added project store raw uid htent
          simp only [tentatively_accepted, Bool.and_eq_true, decide_eq_true_eq] at ht
          exact ht.2
        have hone : (users_to_be_added project store raw).count uid ≤ 1 :=
          List.nodup_iff_count_le_one.mp (users_to_be_added_nodup project store raw) uid
        rw [project_count] at hcnt
        omega
      · have hzero : (users_to_be_added project store raw).count uid = 0 :=
          List.count_eq_zero_of_not_mem htent
        rw [project_count] at hpre
        omega
    · exact hpre

/-- C5 witness: user 6 with no memberships is added once and ends with one
membership, within the limit. -/
theorem add_members_user_limit_invariant_witness :
    project_count storeB 6 ≤ MAX_ASSOCIATED_PROJECTS ∧
    project_count
      ((⟨[(5, MAX_ASSOCIATED_PROJECTS_LIMIT), (6, MEMBER_ADDED_SUCCESSFULLY),
          (7, MEMBER_ADDED_SUCCESSFULLY)],
        ⟨[5, 6, 7], [⟨10, 5⟩, ⟨11, 5⟩, ⟨1, 6⟩, ⟨1, 7⟩], [2], [1, 10, 11]⟩⟩ :
          MemberResult).store) 6 ≤ MAX_ASSOCIATED_PROJECTS :=
  ⟨by decide,
    add_members_user_limit_invariant projB storeB [5, 6, 7] 6 _ (by decide) rfl⟩

/-- C6: in a remove-members call with a valid batch, each resolved member
gets the removed-successfully message and its (project, member) row is gone
afterwards; each resolved non-member gets the not-a-member message and none
of its rows are deleted; the post-state is exactly the pre-state minus the
rows keyed by the target project id and the scheduled member ids. -/
theorem remove_members_spec (project : ProjectSnapshot) (store : Store)
    (raw : List Nat)
    (hvalid : invalid_ids store (validate_user_ids raw) = []) :
    ∃ r, remove_members project store raw = .ok r ∧
      (∀ uid ∈ resolved_user_ids store (validate_user_ids raw),
        (uid ∈ project.users →
          r.logs.lookup uid = some MEMBER_REMOVED_SUCCESSFULLY ∧
          (⟨project.id, uid⟩ : Membership) ∉ r.store.memberships) ∧
        (uid ∉ project.users →
          r.logs.lookup uid = some NOT_A_MEMBER_OF_PROJECT ∧
          ∀ m ∈ store.memberships, m.member_id = uid → m ∈ r.store.memberships)) ∧
      r.store.memberships = store.memberships.filter (fun m =>
        ¬ (m.project_id = project.id ∧
           m.member_id ∈ scheduled_removals project store raw)) := by
  have hstore : (remove_store project store raw).memberships =
      store.memberships.filter (fun m =>
        ¬ (m.project_id = project.id ∧
           m.member_id ∈ scheduled_removals project store raw)) := by
    rw [remove_store]
    split
    · rfl
    · rename_i h
      have hnil : scheduled_removals project store raw = [] := not_not.mp h
      symm
      refine List.filter_eq_self.mpr ?_
      intro m _
      simp [hnil]
  refine ⟨⟨remove_logs project store raw, remove_store project store raw⟩,
    remove_members_ok project store raw hvalid, ?_, hstore⟩
  intro uid hres
  constructor
  · intro hu
    constructor
    · show (remove_logs project store raw).lookup uid = _
      rw [remove_logs, lookup_map_self _ _ uid hres]
      rw [remove_log_message, if_pos hu]
    · show (⟨project.id, uid⟩ : Membership) ∉ (remove_store project store raw).memberships
      rw [hstore]
      intro hmem
      have hp := (List.mem_filter.mp hmem).2
      have hsched : uid ∈ scheduled_removals project store raw :=
        List.mem_filter.mpr ⟨hres, by simpa using hu⟩
      simp only [decide_eq_true_eq] at hp
      exact hp ⟨by trivial, hsched⟩
  · intro hu
    constructor
    · show (remove_logs project store raw).lookup uid = _
      rw [remove_logs, lookup_map_self _ _ uid hres]
      rw [remove_log_message, if_neg hu]
    · intro m hm heq
      show m ∈ (remove_store project store raw).memberships
      rw [hstore]
      refine List.mem_filter.mpr ⟨hm, ?_⟩
      simp only [decide_eq_true_eq]
      rintro ⟨-, hsched⟩
      exact hu (heq ▸ (mem_scheduled_removals project store raw m.member_id hsched).1)

/-- C6 witness: removing [8, 9] from the project whose sole member is 8
removes 8's row, reports 9 as not a member, and deletes nothing else. -/
theorem remove_members_spec_witness :
    invalid_ids storeC (validate_user_ids [8, 9]) = [] ∧
    ∃ r, remove_members projC storeC [8, 9] = .ok r ∧
      (∀ uid ∈ resolved_user_ids storeC (validate_user_ids [8, 9]),
        (uid ∈ projC.users →
          r.logs.lookup uid = some MEMBER_REMOVED_SUCCESSFULLY ∧
          (⟨projC.id, uid⟩ : Membership) ∉ r.store.memberships) ∧
        (uid ∉ projC.users →
          r.logs.lookup uid = some NOT_A_MEMBER_OF_PROJECT ∧
          ∀ m ∈ storeC.memberships, m.member_id = uid → m ∈ r.store.memberships)) ∧
      r.store.memberships = storeC.memberships.filter (fun m =>
        ¬ (m.project_id = projC.id ∧
           m.member_id ∈ scheduled_removals projC storeC [8, 9])) :=
  ⟨by decide, remove_members_spec projC storeC [8, 9] (by decide)⟩

/-- C7: when every requested id resolves to a user, the key list of the
outcome mapping of both operations is exactly the deduplicated request, and
a duplicated accepted id yields exactly one new membership row. -/
theorem members_logs_keys_dedup (project : ProjectSnapshot) (store : Store)
    (raw : List Nat)
    (hvalid : ∀ uid ∈ raw, uid ∈ store.userIds) :
    ∃ ra rr, add_members project store raw = .ok ra ∧
      remove_members project store raw = .ok rr ∧
      ra.logs.map Prod.fst = raw.dedup ∧
      rr.logs.map Prod.fst = raw.dedup ∧
      (¬ add_limit_reached project store raw →
        ∀ uid ∈ raw, tentatively_accepted project store uid = true →
          (ra.store.memberships.filter
            (fun m => m == (⟨project.id, uid⟩ : Membership))).length =
          (store.memberships.filter
            (fun m => m == (⟨project.id, uid⟩ : Membership))).length + 1) := by
  have hnil := invalid_ids_nil_of_all_valid store raw hvalid
  have hresd := resolved_eq_dedup_of_all_valid store raw hvalid
  refine ⟨⟨add_logs project store raw, add_store project store raw⟩,
    ⟨remove_logs project store raw, remove_store project store raw⟩,
    add_members_ok project store raw hnil, remove_members_ok project store raw hnil,
    ?_, ?_, ?_⟩
  · show (add_logs project store raw).map Prod.fst = raw.dedup
    rw [add_logs, map_fst_map_pair, hresd]
    rfl
  · show (remove_logs project store raw).map Prod.fst = raw.dedup
    rw [remove_logs, map_fst_map_pair, hresd]
    rfl
  · intro hnlim uid hmemraw htent
    have hmem : uid ∈ users_to_be_added project store raw :=
      List.mem_filter.mpr ⟨by rw [hresd]; exact List.mem_dedup.mpr hmemraw, htent⟩
    have hne : users_to_be_added project store raw ≠ [] := List.ne_nil_of_mem hmem
    show ((add_store project store raw).memberships.filter _).length = _
    rw [add_store, if_pos ⟨hnlim, hne⟩]
    show ((store.memberships ++ added_rows project store raw).filter _).length = _
    rw [List.filter_append, List.length_append]
    have hrow : ((added_rows project store raw).filter
        (fun m => m == (⟨project.id, uid⟩ : Membership))).length = 1 := by
      rw [added_rows, List.filter_map _ _, List.length_map]
      have hfe : (users_to_be_added project store raw).filter
          ((fun m => m == (⟨project.id, uid⟩ : Membership)) ∘
            (fun u => (⟨project.id, u⟩ : Membership))) =
          (users_to_be_added project store raw).filter (fun u => u == uid) := by
        apply List.filter_congr
        intro u _
        by_cases hu : u = uid
        · subst hu; simp
        · simp [Membership.mk.injEq, hu]
      rw [hfe, ← List.countP_eq_length_filter, ← List.count_eq_countP]
      exact List.count_eq_one_of_mem (users_to_be_added_nodup project store raw) hmem
    omega

/-- C7 witness: the request [3, 3, 3] against a fresh user 3 produces the
single key 3 and exactly one new membership row. -/
theorem members_logs_keys_dedup_witness :
    (∀ uid ∈ ([3, 3, 3] : List Nat), uid ∈ (⟨[3], [], [], [1]⟩ : Store).userIds) ∧
    ∃ ra rr, add_members projB ⟨[3], [], [], [1]⟩ [3, 3, 3] = .ok ra ∧
      remove_members projB ⟨[3], [], [], [1]⟩ [3, 3, 3] = .ok rr ∧
      ra.logs.map Prod.fst = ([3, 3, 3] : List Nat).dedup ∧
      rr.logs.map Prod.fst = ([3, 3, 3] : List Nat).dedup ∧
      (¬ add_limit_reached projB ⟨[3], [], [], [1]⟩ [3, 3, 3] →
        ∀ uid ∈ ([3, 3, 3] : List Nat),
          tentatively_accepted projB ⟨[3], [], [], [1]⟩ uid = true →
          (ra.store.memberships.filter
            (fun m => m == (⟨projB.id, uid⟩ : Membership))).length =
          ((⟨[3], [], [], [1]⟩ : Store).memberships.filter
            (fun m => m == (⟨projB.id, uid⟩ : Membership))).length + 1) :=
  ⟨by decide, members_logs_keys_dedup projB ⟨[3], [], [], [1]⟩ [3, 3, 3] (by decide)⟩

/-- C8: the outcome of an add-members call does not depend on the order of
the requested ids: permuting the request leaves the validation outcome, the
per-id outcome mapping (as a lookup function), and the persisted membership
rows (up to permutation) unchanged, because the batch-wide capacity check is
computed after the independent per-user classifications. -/
theorem add_members_order_independent (project : ProjectSnapshot) (store : Store)
    (raw₁ raw₂ : List Nat) (hperm : raw₁.Perm raw₂) :
    (∀ e, add_members project store raw₁ = .error e ↔
          add_members project store raw₂ = .error e) ∧
    (∀ r₁ r₂, add_members project store raw₁ = .ok r₁ →
       add_members project store raw₂ = .ok r₂ →
       (∀ uid, r₁.logs.lookup uid = r₂.logs.lookup uid) ∧
       r₁.store.memberships.Perm r₂.store.memberships) := by
  have hded : (validate_user_ids raw₁).Perm (validate_user_ids raw₂) := hperm.dedup
  have hres : (resolved_user_ids store (validate_user_ids raw₁)).Perm
      (resolved_user_ids store (validate_user_ids raw₂)) := hded.filter _
  have hinv : (invalid_ids store (validate_user_ids raw₁)).Perm
      (invalid_ids store (validate_user_ids raw₂)) := hded.filter _
  have htent : (users_to_be_added project store raw₁).Perm
      (users_to_be_added project store raw₂) := hres.filter _
  have hlen := htent.length_eq
  have hlim : add_limit_reached project store raw₁ ↔
      add_limit_reached project store raw₂ := by
    rw [add_limit_reached, add_limit_reached, hlen]
  have hinv_nil : invalid_ids store (validate_user_ids raw₁) = [] ↔
      invalid_ids store (validate_user_ids raw₂) = [] := by
    constructor
    · intro h
      have hp := hinv
      rw [h] at hp
      exact hp.symm.eq_nil
    · intro h
      have hp := hinv
      rw [h] at hp
      exact hp.eq_nil
  have hmsg : ∀ uid, add_log_message project store raw₁ uid =
      add_log_message project store raw₂ uid := by
    intro uid
    rw [add_log_message, add_log_message]
    by_cases h1 : add_limit_reached project store raw₁ ∧
        tentatively_accepted project store uid = true
    · rw [if_pos h1, if_pos ⟨hlim.mp h1.1, h1.2⟩]
    · rw [if_neg h1, if_neg]
      intro h2
      exact h1 ⟨hlim.mpr h2.1, h2.2⟩
  constructor
  · intro e
    rw [add_members, add_members]
    by_cases h : invalid_ids store (validate_user_ids raw₁) = []
    · rw [if_neg (not_not_intro h), if_neg (not_not_intro (hinv_nil.mp h))]
      exact ⟨fun hc => Except.noConfusion hc, fun hc => Except.noConfusion hc⟩
    · rw [if_pos h, if_pos (fun h2 => h (hinv_nil.mpr h2))]
  · intro r₁ r₂ h1 h2
    rw [add_members] at h1
    rw [add_members] at h2
    split at h1
    · cases h1
    · split at h2
      · cases h2
      · cases h1
        cases h2
        constructor
        · intro uid
          show (add_logs project store raw₁).lookup uid =
            (add_logs project store raw₂).lookup uid
          by_cases hmem : uid ∈ resolved_user_ids store (validate_user_ids raw₁)
          · rw [add_logs, add_logs, lookup_map_self _ _ uid hmem,
              lookup_map_self _ _ uid (hres.mem_iff.mp hmem), hmsg uid]
          · rw [add_logs, add_logs, lookup_map_none _ _ uid hmem,
              lookup_map_none _ _ uid (fun hm => hmem (hres.mem_iff.mpr hm))]
        · show (add_store project store raw₁).memberships.Perm
            (add_store project store raw₂).memberships
          rw [add_store, add_store]
          by_cases hl : add_limit_reached project store raw₁
          · rw [if_neg (fun hc => hc.1 hl), if_neg (fun hc => hc.1 (hlim.mp hl))]
          · by_cases hne : users_to_be_added project store raw₁ = []
            · have hne2 : users_to_be_added project store raw₂ = [] := by
                have hp := htent
                rw [hne] at hp
                exact hp.symm.eq_nil
              rw [if_neg (fun hc => hc.2 hne), if_neg (fun hc => hc.2 hne2)]
            · have hne2 : users_to_be_added project store raw₂ ≠ [] := by
                intro h0
                have hp := htent
                rw [h0] at hp
                exact hne hp.eq_nil
              rw [if_pos ⟨hl, hne⟩, if_pos ⟨fun hc => hl (hlim.mpr hc), hne2⟩]
              exact (htent.map _).append_left store.memberships

/-- C8 witness: the requests [8, 9] and [9, 8] against the same project give
the same lookup function and the same membership rows up to permutation. -/
theorem add_members_order_independent_witness :
    ([8, 9] : List Nat).Perm [9, 8] ∧
    ((∀ e, add_members projA storeA [8, 9] = .error e ↔
           add_members projA storeA [9, 8] = .error e) ∧
     (∀ r₁ r₂, add_members projA storeA [8, 9] = .ok r₁ →
        add_members projA storeA [9, 8] = .ok r₂ →
        (∀ uid, r₁.logs.lookup uid = r₂.logs.lookup uid) ∧
        r₁.store.memberships.Perm r₂.store.memberships)) :=
  ⟨by decide, add_members_order_independent projA storeA [8, 9] [9, 8] (by decide)⟩

/-- C9 counterexample: updating a todo that is already done (done = true,
date_completed = 5) with done = true again — no transition of the done
flag — overwrites date_completed with the current time 7, so an update that
does not change done does not leave date_completed unchanged. -/
theorem update_todo_no_transition_counterexample :
    (⟨"t", true, some 5⟩ : Todo).done = true ∧
    (update_todo 7 ⟨"t", true, some 5⟩ "t" true).done = true ∧
    (⟨"t", true, some 5⟩ : Todo).date_completed = some 5 ∧
    (update_todo 7 ⟨"t", true, some 5⟩ "t" true).date_completed = some 7 ∧
    some (7 : Nat) ≠ some 5 :=
  ⟨rfl, rfl, rfl, rfl, by decide⟩

/-- C9 (amended): a todo update sets date_completed to the current time
whenever the incoming done value is true — even when done was already true,
refreshing the timestamp — and clears it whenever the incoming done value is
false; the attributes are left untouched only when the update omits done. -/
theorem update_todo_sets_timestamp_by_value (now : Nat) (todo : Todo)
    (new_name : String) (new_done : Bool) :
    (new_done = true →
      (update_todo now todo new_name new_done).date_completed = some now) ∧
    (new_done = false →
      (update_todo now todo new_name new_done).date_completed = none) ∧
    UpdateTodoSerializer.validate now ⟨new_name, none, todo.date_completed⟩ =
      ⟨new_name, none, todo.date_completed⟩ := by
  refine ⟨?_, ?_, ?_⟩
  · rintro rfl
    rfl
  · rintro rfl
    rfl
  · rw [UpdateTodoSerializer.validate, if_neg (by simp), if_neg (by simp)]

/-- C9 witness: marking an open todo done stamps time 7; marking it open
clears the stamp; an update without done leaves the attributes unchanged. -/
theorem update_todo_sets_timestamp_by_value_witness :
    ((true : Bool) = true →
      (update_todo 7 ⟨"t", false, none⟩ "t" true).date_completed = some 7) ∧
    ((true : Bool) = false →
      (update_todo 7 ⟨"t", false, none⟩ "t" true).date_completed = none) ∧
    UpdateTodoSerializer.validate 7 ⟨"t", none, (⟨"t", false, none⟩ : Todo).date_completed⟩ =
      ⟨"t", none, (⟨"t", false, none⟩ : Todo).date_completed⟩ :=
  update_todo_sets_timestamp_by_value 7 ⟨"t", false, none⟩ "t" true

/-- C10: frame property — a successful add-members call only appends
membership rows for the target project and tentatively-accepted requested
users, a successful remove-members call only deletes membership rows of the
target project for requested current members, and both leave the User, Todo
and Project tables unchanged. -/
theorem members_frame_property (project : ProjectSnapshot) (store : Store)
    (raw : List Nat) (ra rr : MemberResult)
    (ha : add_members project store raw = .ok ra)
    (hr : remove_members project store raw = .ok rr) :
    (ra.store.userIds = store.userIds ∧ ra.store.todoIds = store.todoIds ∧
     ra.store.projectIds = store.projectIds ∧
     ∃ created, ra.store.memberships = store.memberships ++ created ∧
       ∀ m ∈ created, m.project_id = project.id ∧
         tentatively_accepted project store m.member_id = true ∧
         m.member_id ∈ raw.dedup) ∧
    (rr.store.userIds = store.userIds ∧ rr.store.todoIds = store.todoIds ∧
     rr.store.projectIds = store.projectIds ∧
     rr.store.memberships.Sublist store.memberships ∧
     ∀ m ∈ store.memberships, m ∉ rr.store.memberships →
       m.project_id = project.id ∧ m.member_id ∈ project.users ∧
       m.member_id ∈ raw.dedup) := by
  rw [add_members] at ha
  rw [remove_members] at hr
  split at ha
  · cases ha
  · split at hr
    · cases hr
    · cases ha
      cases hr
      constructor
      · show (add_store project store raw).userIds = _ ∧
          (add_store project store raw).todoIds = _ ∧
          (add_store project store raw).projectIds = _ ∧ _
        rw [add_store]
        split
        · exact ⟨rfl, rfl, rfl, added_rows project store raw, rfl,
            fun m hm => added_rows_spec project store raw m hm⟩
        · exact ⟨rfl, rfl, rfl, [], by simp,
            fun m hm => absurd hm (List.not_mem_nil m)⟩
      · show (remove_store project store raw).userIds = _ ∧
          (remove_store project store raw).todoIds = _ ∧
          (remove_store project store raw).projectIds = _ ∧ _
        rw [remove_store]
        split
        · refine ⟨rfl, rfl, rfl, List.filter_sublist _, ?_⟩
          intro m hm hnot
          by_cases hpred : m.project_id = project.id ∧
              m.member_id ∈ scheduled_removals project store raw
          · rcases mem_scheduled_removals project store raw m.member_id hpred.2 with
              ⟨hu, hd⟩
            exact ⟨hpred.1, hu, hd⟩
          · refine absurd (List.mem_filter.mpr ⟨hm, ?_⟩) hnot
            simp only [decide_eq_true_eq]
            exact hpred
        · refine ⟨rfl, rfl, rfl, List.Sublist.refl _, ?_⟩
          intro m hm hnot
          exact absurd hm hnot

/-- C10 witness: against the project whose sole member is 8, adding [8, 9]
appends only the row (1, 9) and removing [8, 9] deletes only the row (1, 8);
the other tables are untouched. -/
theorem members_frame_property_witness :
    add_members projC storeC [8, 9] =
      .ok ⟨[(8, ALREADY_MEMBER_OF_PROJECT), (9, MEMBER_ADDED_SUCCESSFULLY)],
        ⟨[8, 9], [⟨1, 8⟩, ⟨1, 9⟩], [], [1]⟩⟩ ∧
    remove_members projC storeC [8, 9] =
      .ok ⟨[(8, MEMBER_REMOVED_SUCCESSFULLY), (9, NOT_A_MEMBER_OF_PROJECT)],
        ⟨[8, 9], [], [], [1]⟩⟩ ∧
    (((⟨[8, 9], [⟨1, 8⟩, ⟨1, 9⟩], [], [1]⟩ : Store).userIds = storeC.userIds ∧
      (⟨[8, 9], [⟨1, 8⟩, ⟨1, 9⟩], [], [1]⟩ : Store).todoIds = storeC.todoIds ∧
      (⟨[8, 9], [⟨1, 8⟩, ⟨1, 9⟩], [], [1]⟩ : Store).projectIds = storeC.projectIds ∧
      ∃ created, (⟨[8, 9], [⟨1, 8⟩, ⟨1, 9⟩], [], [1]⟩ : Store).memberships =
          storeC.memberships ++ created ∧
        ∀ m ∈ created, m.project_id = projC.id ∧
          tentatively_accepted projC storeC m.member_id = true ∧
          m.member_id ∈ ([8, 9] : List Nat).dedup) ∧
     ((⟨[8, 9], [], [], [1]⟩ : Store).userIds = storeC.userIds ∧
      (⟨[8, 9], [], [], [1]⟩ : Store).todoIds = storeC.todoIds ∧
      (⟨[8, 9], [], [], [1]⟩ : Store).projectIds = storeC.projectIds ∧
      (⟨[8, 9], [], [], [1]⟩ : Store).memberships.Sublist storeC.memberships ∧
      ∀ m ∈ storeC.memberships, m ∉ (⟨[8, 9], [], [], [1]⟩ : Store).memberships →
        m.project_id = projC.id ∧ m.member_id ∈ projC.users ∧
        m.member_id ∈ ([8, 9] : List Nat).dedup)) :=
  ⟨rfl, rfl,
    members_frame_property projC storeC [8, 9]
      ⟨[(8, ALREADY_MEMBER_OF_PROJECT), (9, MEMBER_ADDED_SUCCESSFULLY)],
        ⟨[8, 9], [⟨1, 8⟩, ⟨1, 9⟩], [], [1]⟩⟩
      ⟨[(8, MEMBER_REMOVED_SUCCESSFULLY), (9, NOT_A_MEMBER_OF_PROJECT)],
        ⟨[8, 9], [], [], [1]⟩⟩ rfl rfl⟩

end TodoApp
